import Mathlib

/-!
Shallow embedding of the IncludeOS kernel threading core
(`src/kernel/threads.cpp`) and proofs about its specification.

Threads are heap objects reached through pointers; we model pointer
identity with the `Ptr` type (a per-CPU `main_thread` member of each
`ThreadManager`, or a dynamically allocated thread identified by the
unique id it was created with — ids are never reused, so this is a
faithful pointer identity for objects created by `thread_create`).
The per-CPU managers, the heap of live `Thread` objects, the user
memory touched by the TID flags, and the process-wide id counter form
the system state `Sys`.  A fatal assertion (`assert` in the C++) is
modelled by an operation returning `none`.
-/

set_option autoImplicit false

namespace IncludeOS

/-- Pointer identity of a `kernel::Thread` object. -/
inductive Ptr where
  /-- The `main_thread` member of the manager of CPU `cpu`. -/
  | mainOf (cpu : Nat)
  /-- A `new`-allocated thread; `uid` is the (unique, never reused) id
      it was created with. -/
  | dyn (uid : Nat)
deriving DecidableEq, Repr

/-- `struct Thread` (fields used by `threads.cpp`).  Addresses
(instruction pointers, stack pointers, TLS, the CLEARTID address) are
opaque machine words modelled as `Nat`. -/
structure Thread where
  tid : Int
  parent : Option Ptr
  children : List Ptr
  stored_nexti : Nat
  stored_stack : Nat
  my_tls : Nat
  my_stack : Nat
  clear_tid : Option Nat
  yielded : Bool
deriving DecidableEq, Repr

/-- `ThreadManager`: the per-CPU registry `std::map<long, Thread*> threads`
(an association list with unique keys and map semantics) and the
`std::deque<Thread*> suspended` FIFO queue. -/
structure ThreadManager where
  threads : List (Int × Ptr)
  suspended : List Ptr
deriving DecidableEq, Repr

/-- `std::map::find` on the registry association list. -/
def mapFind (m : List (Int × Ptr)) (k : Int) : Option Ptr :=
  match m with
  | [] => none
  | (k2, v) :: rest => if k = k2 then some v else mapFind rest k

/-- `std::map::emplace`: inserts the pair only when the key is absent;
with an existing key the map is left unchanged (no failure is
signalled). -/
def mapEmplace (m : List (Int × Ptr)) (k : Int) (v : Ptr) : List (Int × Ptr) :=
  match mapFind m k with
  | some _ => m
  | none => m ++ [(k, v)]

/-- `std::map::erase` of a key. -/
def mapErase (m : List (Int × Ptr)) (k : Int) : List (Int × Ptr) :=
  m.filter (fun kv => kv.1 ≠ k)

/-- The heap of live `Thread` objects. -/
abbrev Heap : Type := List (Ptr × Thread)

/-- Dereference a thread pointer. -/
def heapFind (h : Heap) (p : Ptr) : Option Thread :=
  match h with
  | [] => none
  | (q, t) :: rest => if p = q then some t else heapFind rest p

/-- Mutate the object a pointer refers to (a no-op on a dangling
pointer; the claims only use states whose pointers are live). -/
def heapUpdate (h : Heap) (p : Ptr) (f : Thread → Thread) : Heap :=
  h.map (fun e => if e.1 = p then (e.1, f e.2) else e)

/-- `delete` a thread object. -/
def heapErase (h : Heap) (p : Ptr) : Heap :=
  h.filter (fun e => e.1 ≠ p)

/-- User memory (addresses written by the SETTID/CLEARTID logic). -/
abbrev Mem : Type := List (Nat × Int)

/-- Write a value at an address. -/
def memSet (m : Mem) (a : Nat) (v : Int) : Mem :=
  match m with
  | [] => [(a, v)]
  | (b, w) :: rest => if a = b then (a, v) :: rest else (b, w) :: memSet rest a v

/-- Read a value at an address. -/
def memGet (m : Mem) (a : Nat) : Option Int :=
  match m with
  | [] => none
  | (b, w) :: rest => if a = b then some w else memGet rest a

/-- The whole system: the process-wide id counter `thread_counter`
(initialised to 1), the `SMP::Array<ThreadManager>` indexed by CPU,
the heap of live threads and the user memory. -/
structure Sys where
  thread_counter : Int
  managers : List ThreadManager
  heap : Heap
  mem : Mem
deriving DecidableEq

/-- `PER_CPU(thread_managers)` / `thread_managers.at(cpu)`. -/
def getMgr (s : Sys) (cpu : Nat) : Option ThreadManager :=
  s.managers[cpu]?

def setMgr (s : Sys) (cpu : Nat) (m : ThreadManager) : Sys :=
  { s with managers := s.managers.set cpu m }

/-- `generate_new_thread_id`: atomic fetch-and-add, returns the old
counter value. -/
def generate_new_thread_id (s : Sys) : Int × Sys :=
  (s.thread_counter, { s with thread_counter := s.thread_counter + 1 })

/-- `get_last_thread_id`. -/
def get_last_thread_id (s : Sys) : Int :=
  s.thread_counter - 1

/-- `Thread::store_return`: records the continuation on the thread. -/
def store_return (s : Sys) (p : Ptr) (ret_instr ret_stack : Nat) : Sys :=
  let h := heapUpdate s.heap p
    (fun t => { t with stored_nexti := ret_instr, stored_stack := ret_stack })
  { s with heap := h }

/-- Modelled from the spec: `ThreadManager::suspend` is declared in
`kernel/threads.hpp`, which is not part of the sources; per the spec the
thread is registered into the owning CPU manager's FIFO `suspendedQueue`
(appended at the back), and the insertion may fail with an allocation
failure that propagates to the caller.  `enqOk = false` models that
allocation failure: the queue is left unchanged. -/
def managerSuspend (s : Sys) (cpu : Nat) (p : Ptr) (enqOk : Bool) : Sys × Bool :=
  if enqOk then
    match getMgr s cpu with
    | some m => (setMgr s cpu { m with suspended := m.suspended ++ [p] }, true)
    | none => (s, true)
  else (s, false)

/-- `Thread::suspend`: stores the continuation, then adds the thread to
the suspended queue (which can throw).  The returned `Bool` is `false`
when the enqueue failed and the exception propagates to the caller
(`Thread::suspend` has no handler). -/
def Thread.suspend (s : Sys) (cpu : Nat) (p : Ptr) (ret_instr ret_stack : Nat)
    (enqOk : Bool) : Sys × Bool :=
  let s1 := store_return s p ret_instr ret_stack
  managerSuspend s1 cpu p enqOk

/-- `ThreadManager::insert_thread`: `threads.emplace(tid, thread)`. -/
def ThreadManager.insert_thread (m : ThreadManager) (tid : Int) (p : Ptr) :
    ThreadManager :=
  { m with threads := mapEmplace m.threads tid p }

/-- `insert_thread` lifted to the system state (on the manager of `cpu`). -/
def sysInsertThread (s : Sys) (cpu : Nat) (tid : Int) (p : Ptr) : Sys :=
  match getMgr s cpu with
  | some m => setMgr s cpu (m.insert_thread tid p)
  | none => s

/-- `ThreadManager::erase_thread_safely`: asserts the thread's id is in
the registry and maps to this very pointer, then erases it.  `none`
models a failed assertion (fatal). -/
def erase_thread_safely (s : Sys) (cpu : Nat) (p : Ptr) (tid : Int) : Option Sys :=
  match getMgr s cpu with
  | none => none
  | some m =>
    match mapFind m.threads tid with
    | none => none
    | some q =>
      if q = p then some (setMgr s cpu { m with threads := mapErase m.threads tid })
      else none

/-- `ThreadManager::wakeup_next`: asserts the suspended queue is
non-empty (fatal otherwise), pops the front and returns it. -/
def wakeup_next (s : Sys) (cpu : Nat) : Option (Ptr × Sys) :=
  match getMgr s cpu with
  | none => none
  | some m =>
    match m.suspended with
    | [] => none
    | p :: rest => some (p, setMgr s cpu { m with suspended := rest })

/-- `ThreadManager::erase_suspension`: removes every occurrence of the
thread from the suspended queue (tolerant of zero occurrences). -/
def erase_suspension (s : Sys) (cpu : Nat) (t : Ptr) : Sys :=
  match getMgr s cpu with
  | none => s
  | some m => setMgr s cpu { m with suspended := m.suspended.filter (fun q => q ≠ t) }

/-- `get_thread(long tid)`: looks the id up in the calling CPU's
manager registry only; `none` is `nullptr`. -/
def get_thread (s : Sys) (cpu : Nat) (tid : Int) : Option Ptr :=
  match getMgr s cpu with
  | none => none
  | some m => mapFind m.threads tid

/-- `kernel::resume(long tid)`: `assert(Thread)` then `Thread->resume()`.
Returns the pointer whose saved continuation control transfers into;
`none` models the fatal assertion on an unknown id. -/
def kernelResume (s : Sys) (cpu : Nat) (tid : Int) : Option Ptr :=
  match get_thread s cpu tid with
  | none => none
  | some p => some p

/-- `ThreadManager::migrate(tid, cpu)`, invoked on the manager of
`cpuA` from CPU `cpuA` (so the `get_thread` lookup and the erasure both
use `cpuA`'s registry); the thread is then inserted into `cpuB`'s
registry.  `none` models a failed assertion. -/
def migrate (s : Sys) (cpuA : Nat) (tid : Int) (cpuB : Nat) : Option Sys :=
  match get_thread s cpuA tid with
  | none => none
  | some p =>
    match erase_thread_safely s cpuA p tid with
    | none => none
    | some s1 => some (sysInsertThread s1 cpuB tid p)

/-- The loop in `Thread::exit` that reparents every child to the owning
manager's `main_thread` (it assigns each child's `parent` field and
nothing else). -/
def reparentChildren (h : Heap) (cpu : Nat) (cs : List Ptr) : Heap :=
  cs.foldl (fun acc c =>
    heapUpdate acc c (fun t => { t with parent := some (Ptr.mainOf cpu) })) h

/-- Erase the first occurrence of `x` (the `pcvec.erase(it); break;`
loop in `Thread::exit`). -/
def removeFirst (l : List Ptr) (x : Ptr) : List Ptr :=
  match l with
  | [] => []
  | y :: rest => if y = x then rest else y :: removeFirst rest x

/-- `Thread::exit`, executing on CPU `cpu` whose currently running
thread is `curr` (the value of the argument-less `get_thread()`), on
the thread object `p`.  Returns the new state together with the thread
that is resumed afterwards (`some` of the former parent exactly when
the exiting thread is the current one), or `none` on a fatal assertion
(`parent == nullptr`, or the registry check in `erase_thread_safely`). -/
def Thread.exit (s : Sys) (cpu : Nat) (curr : Ptr) (p : Ptr) :
    Option (Sys × Option Ptr) :=
  match heapFind s.heap p with
  | none => none
  | some th =>
    match th.parent with
    | none => none
    | some _ =>
      let exiting_myself : Bool := curr = p
      let h1 := reparentChildren s.heap cpu th.children
      match heapFind h1 p with
      | none => none
      | some th2 =>
        match th2.parent with
        | none => none
        | some q =>
          let h2 := heapUpdate h1 q
            (fun t => { t with children := removeFirst t.children p })
          let m1 : Mem :=
            match th2.clear_tid with
            | some a => memSet s.mem a 0
            | none => s.mem
          let s1 : Sys := { s with heap := h2, mem := m1 }
          match erase_thread_safely s1 cpu p th2.tid with
          | none => none
          | some s2 =>
            let s3 : Sys := { s2 with heap := heapErase s2.heap p }
            if exiting_myself then
              some (erase_suspension s3 cpu q, some q)
            else
              some (s3, none)

/-- Clone flag `CLONE_CHILD_SETTID`. -/
def CLONE_CHILD_SETTID : Nat := 0x01000000

/-- Clone flag `CLONE_CHILD_CLEARTID`. -/
def CLONE_CHILD_CLEARTID : Nat := 0x00200000

/-- The field values of a freshly `new`-allocated `Thread` after
`init(tid)`, before the creation path fills in the rest. -/
def freshThread (tid : Int) : Thread :=
  { tid := tid, parent := none, children := [], stored_nexti := 0,
    stored_stack := 0, my_tls := 0, my_stack := 0, clear_tid := none,
    yielded := false }

/-- `kernel::thread_create(parent, flags, ctid, stack)` running on CPU
`cpu`.  The id is generated (counter fetched-and-incremented) before
the `try` block; `allocOk = false` models the `new Thread` allocation
throwing, which the `catch` turns into a `nullptr` return — the counter
is not rolled back.  On success the new thread is initialised, linked
under `parent` (pushed onto its `children`), the SETTID flag writes the
new id to `ctid`, the CLEARTID flag records `ctid` as `clear_tid`, and
the thread is inserted into the calling CPU's registry. -/
def thread_create (s : Sys) (cpu : Nat) (parent : Ptr) (flags : Nat)
    (ctid : Nat) (stack : Nat) (allocOk : Bool) : Sys × Option Ptr :=
  let (tid, s0) := generate_new_thread_id s
  if allocOk then
    let p := Ptr.dyn tid.toNat
    let th := { freshThread tid with parent := some parent, my_stack := stack }
    let s1 := { s0 with heap := s0.heap ++ [(p, th)] }
    let h2 := heapUpdate s1.heap parent
      (fun t => { t with children := t.children ++ [p] })
    let s2 := { s1 with heap := h2 }
    let s3 := if flags &&& CLONE_CHILD_SETTID ≠ 0
      then { s2 with mem := memSet s2.mem ctid tid } else s2
    let h4 := heapUpdate s3.heap p (fun t => { t with clear_tid := some ctid })
    let s4 := if flags &&& CLONE_CHILD_CLEARTID ≠ 0
      then { s3 with heap := h4 } else s3
    (sysInsertThread s4 cpu tid p, some p)
  else
    (s0, none)

/-- `setup_main_thread` on CPU `cpu`: the manager's `main_thread`
member is initialised with id 0 and the sentinel stack address, and
activated with the already-installed thread-local area. -/
def setup_main_thread (s : Sys) (cpu : Nat) (stackSentinel tlsArea : Nat) : Sys :=
  let h := heapUpdate s.heap (Ptr.mainOf cpu)
    (fun t => { t with tid := 0, my_stack := stackSentinel, my_tls := tlsArea })
  { s with heap := h }

/-! ### Basic lemmas about the state operations -/

theorem heapFind_update (h : Heap) (p c : Ptr) (f : Thread → Thread) :
    heapFind (heapUpdate h p f) c
      = if c = p then (heapFind h c).map f else heapFind h c := by
  induction h with
  | nil => by_cases hc : c = p <;> simp [heapUpdate, heapFind, hc]
  | cons e rest ih =>
    obtain ⟨q, t⟩ := e
    by_cases hqp : q = p
    · have hcons : heapUpdate ((q, t) :: rest) p f = (q, f t) :: heapUpdate rest p f := by
        simp [heapUpdate, hqp]
      rw [hcons]
      by_cases hcq : c = q
      · have h1 : heapFind ((q, f t) :: heapUpdate rest p f) c = some (f t) := by
          simp [heapFind, hcq]
        have h2 : heapFind ((q, t) :: rest) c = some t := by
          simp [heapFind, hcq]
        rw [h1, h2, if_pos (hcq.trans hqp)]
        rfl
      · have h1 : heapFind ((q, f t) :: heapUpdate rest p f) c
            = heapFind (heapUpdate rest p f) c := by
          simp [heapFind, hcq]
        have h2 : heapFind ((q, t) :: rest) c = heapFind rest c := by
          simp [heapFind, hcq]
        rw [h1, h2, ih]
    · have hcons : heapUpdate ((q, t) :: rest) p f = (q, t) :: heapUpdate rest p f := by
        simp [heapUpdate, hqp]
      rw [hcons]
      by_cases hcq : c = q
      · have hcp : c ≠ p := fun hh => hqp (hcq.symm.trans hh)
        have h1 : heapFind ((q, t) :: heapUpdate rest p f) c = some t := by
          simp [heapFind, hcq]
        have h2 : heapFind ((q, t) :: rest) c = some t := by
          simp [heapFind, hcq]
        rw [h1, h2, if_neg hcp]
      · have h1 : heapFind ((q, t) :: heapUpdate rest p f) c
            = heapFind (heapUpdate rest p f) c := by
          simp [heapFind, hcq]
        have h2 : heapFind ((q, t) :: rest) c = heapFind rest c := by
          simp [heapFind, hcq]
        rw [h1, h2, ih]

theorem heapFind_erase_ne (h : Heap) (p c : Ptr) (hne : c ≠ p) :
    heapFind (heapErase h p) c = heapFind h c := by
  induction h with
  | nil => rfl
  | cons e rest ih =>
    obtain ⟨q, t⟩ := e
    by_cases hqp : q = p
    · have hcons : heapErase ((q, t) :: rest) p = heapErase rest p := by
        simp [heapErase, hqp]
      have hcq : c ≠ q := fun hh => hne (hh.trans hqp)
      rw [hcons, ih]
      simp [heapFind, hcq]
    · have hcons : heapErase ((q, t) :: rest) p = (q, t) :: heapErase rest p := by
        simp [heapErase, hqp]
      rw [hcons]
      by_cases hcq : c = q
      · simp [heapFind, hcq]
      · simp [heapFind, hcq, ih]

theorem heapFind_erase_self (h : Heap) (p : Ptr) :
    heapFind (heapErase h p) p = none := by
  induction h with
  | nil => rfl
  | cons e rest ih =>
    obtain ⟨q, t⟩ := e
    by_cases hqp : q = p
    · have hcons : heapErase ((q, t) :: rest) p = heapErase rest p := by
        simp [heapErase, hqp]
      rw [hcons]
      exact ih
    · have hcons : heapErase ((q, t) :: rest) p = (q, t) :: heapErase rest p := by
        simp [heapErase, hqp]
      have hpq : p ≠ q := fun hh => hqp hh.symm
      rw [hcons]
      simp [heapFind, hpq, ih]

theorem heapFind_append_left (h h' : Heap) (p : Ptr) (t : Thread)
    (hfind : heapFind h p = some t) : heapFind (h ++ h') p = some t := by
  induction h with
  | nil => simp [heapFind] at hfind
  | cons e rest ih =>
    obtain ⟨q, u⟩ := e
    by_cases hpq : p = q <;> simp_all [heapFind]

theorem heapFind_reparent (h : Heap) (cpu : Nat) (cs : List Ptr) (c : Ptr) :
    heapFind (reparentChildren h cpu cs) c
      = if c ∈ cs
        then (heapFind h c).map (fun t => { t with parent := some (Ptr.mainOf cpu) })
        else heapFind h c := by
  induction cs generalizing h with
  | nil => simp [reparentChildren]
  | cons d rest ih =>
    have hidem : ∀ o : Option Thread,
        (o.map (fun t => { t with parent := some (Ptr.mainOf cpu) })).map
            (fun t => { t with parent := some (Ptr.mainOf cpu) })
          = o.map (fun t => { t with parent := some (Ptr.mainOf cpu) }) := by
      intro o
      cases o <;> rfl
    have hfold : reparentChildren h cpu (d :: rest)
        = reparentChildren
            (heapUpdate h d (fun t => { t with parent := some (Ptr.mainOf cpu) }))
            cpu rest := rfl
    rw [hfold, ih, heapFind_update]
    by_cases hcr : c ∈ rest
    · rw [if_pos hcr, if_pos (List.mem_cons_of_mem d hcr)]
      by_cases hcd : c = d
      · rw [if_pos hcd]
        exact hidem _
      · rw [if_neg hcd]
    · rw [if_neg hcr]
      by_cases hcd : c = d
      · have hmem : c ∈ d :: rest := by
          rw [hcd]
          exact List.mem_cons_self d rest
        rw [if_pos hcd, if_pos hmem]
      · have hmem : c ∉ d :: rest := by
          intro hh
          rcases List.mem_cons.mp hh with h1 | h2
          · exact hcd h1
          · exact hcr h2
        rw [if_neg hcd, if_neg hmem]

theorem mapFind_erase_self (m : List (Int × Ptr)) (k : Int) :
    mapFind (mapErase m k) k = none := by
  induction m with
  | nil => rfl
  | cons e rest ih =>
    obtain ⟨k2, v⟩ := e
    by_cases hk : k2 = k
    · have hcons : mapErase ((k2, v) :: rest) k = mapErase rest k := by
        simp [mapErase, hk]
      rw [hcons]
      exact ih
    · have hcons : mapErase ((k2, v) :: rest) k = (k2, v) :: mapErase rest k := by
        simp [mapErase, hk]
      have hkk : k ≠ k2 := fun hh => hk hh.symm
      rw [hcons]
      simp [mapFind, hkk, ih]

theorem mapFind_append_right (m : List (Int × Ptr)) (k : Int) (v : Ptr)
    (h : mapFind m k = none) : mapFind (m ++ [(k, v)]) k = some v := by
  induction m with
  | nil => simp [mapFind]
  | cons e rest ih =>
    obtain ⟨k2, w⟩ := e
    by_cases hk : k = k2 <;> simp_all [mapFind]

theorem mapFind_emplace_absent (m : List (Int × Ptr)) (k : Int) (v : Ptr)
    (h : mapFind m k = none) : mapFind (mapEmplace m k v) k = some v := by
  unfold mapEmplace
  rw [h]
  exact mapFind_append_right m k v h

theorem memGet_set_self (m : Mem) (a : Nat) (v : Int) :
    memGet (memSet m a v) a = some v := by
  induction m with
  | nil => simp [memSet, memGet]
  | cons e rest ih =>
    obtain ⟨b, w⟩ := e
    by_cases hb : a = b <;> simp_all [memSet, memGet]

theorem mem_removeFirst (l : List Ptr) (x y : Ptr) (h : y ∈ removeFirst l x) :
    y ∈ l := by
  induction l with
  | nil => simp [removeFirst] at h
  | cons z rest ih =>
    by_cases hz : z = x
    · simp [removeFirst, hz] at h
      simp [h]
    · simp [removeFirst, hz, List.mem_cons] at h
      rcases h with h | h
      · simp [h]
      · exact List.mem_cons_of_mem _ (ih h)

theorem getMgr_lt (s : Sys) (cpu : Nat) (m : ThreadManager)
    (h : getMgr s cpu = some m) : cpu < s.managers.length := by
  unfold getMgr at h
  exact (List.getElem?_eq_some_iff.mp h).1

theorem getMgr_setMgr_self (s : Sys) (cpu : Nat) (m : ThreadManager)
    (h : cpu < s.managers.length) : getMgr (setMgr s cpu m) cpu = some m := by
  simp [getMgr, setMgr, List.getElem?_set_self h]

theorem getMgr_setMgr_ne (s : Sys) (cpu cpu' : Nat) (m : ThreadManager)
    (h : cpu ≠ cpu') : getMgr (setMgr s cpu m) cpu' = getMgr s cpu' := by
  simp [getMgr, setMgr, List.getElem?_set_ne h]

theorem setMgr_heap (s : Sys) (cpu : Nat) (m : ThreadManager) :
    (setMgr s cpu m).heap = s.heap := rfl

theorem setMgr_length (s : Sys) (cpu : Nat) (m : ThreadManager) :
    (setMgr s cpu m).managers.length = s.managers.length := by
  simp [setMgr]

theorem sysInsertThread_counter (s : Sys) (cpu : Nat) (tid : Int) (p : Ptr) :
    (sysInsertThread s cpu tid p).thread_counter = s.thread_counter := by
  unfold sysInsertThread
  cases getMgr s cpu <;> rfl

theorem erase_suspension_heap (s : Sys) (cpu : Nat) (t : Ptr) :
    (erase_suspension s cpu t).heap = s.heap := by
  unfold erase_suspension
  cases getMgr s cpu <;> rfl

theorem mapFind_emplace_ne_none (m : List (Int × Ptr)) (k : Int) (v : Ptr) :
    mapFind (mapEmplace m k v) k ≠ none := by
  unfold mapEmplace
  cases hf : mapFind m k with
  | some w => simp [hf]
  | none =>
    rw [mapFind_append_right m k v hf]
    simp

/-! ### Concrete states used by counterexamples and witnesses.

A one-CPU system in which the main thread of CPU 0 has created thread A
(id 1) and A has created thread B (id 2); both are registered with the
manager of CPU 0 (the main thread itself is never registered). -/

def exMain : Thread := { freshThread 0 with children := [Ptr.dyn 1] }

def exA : Thread :=
  { freshThread 1 with parent := some (Ptr.mainOf 0), children := [Ptr.dyn 2] }

def exB : Thread := { freshThread 2 with parent := some (Ptr.dyn 1) }

def exMgr : ThreadManager :=
  { threads := [(1, Ptr.dyn 1), (2, Ptr.dyn 2)], suspended := [] }

def exSys : Sys :=
  { thread_counter := 3, managers := [exMgr],
    heap := [(Ptr.mainOf 0, exMain), (Ptr.dyn 1, exA), (Ptr.dyn 2, exB)],
    mem := [] }

/-- The same system with thread A and the main thread sitting in the
suspended queue (in that order). -/
def exSysQueued : Sys :=
  { exSys with managers := [{ exMgr with suspended := [Ptr.dyn 1, Ptr.mainOf 0] }] }

/-- The same system with thread A holding a previously stored
continuation (instruction 10, stack 20). -/
def exSysStored : Sys :=
  { exSys with heap :=
      [(Ptr.mainOf 0, exMain),
       (Ptr.dyn 1, { exA with stored_nexti := 10, stored_stack := 20 }),
       (Ptr.dyn 2, exB)] }

/-- A two-CPU system: thread with id 1 registered on CPU 1's manager
only; CPU 0's registry is empty. -/
def exSysTwo : Sys :=
  { thread_counter := 2,
    managers := [{ threads := [], suspended := [] },
                 { threads := [(1, Ptr.dyn 1)], suspended := [] }],
    heap := [(Ptr.mainOf 0, freshThread 0), (Ptr.mainOf 1, freshThread 0),
             (Ptr.dyn 1, { freshThread 1 with parent := some (Ptr.mainOf 1) })],
    mem := [] }

/-! ### Claim C3 -/

/-- C3 counterexample: with id 1 already a key of the registry,
`insert_thread` of a second thread under the same id leaves the manager
exactly unchanged.  `ThreadManager::insert_thread` is a total operation
with no failure path (`std::map::emplace` simply does not insert when the
key exists), so contrary to the claim nothing traps: the registry is
silently left unchanged. -/
theorem C3_counterexample :
    ThreadManager.insert_thread
        { threads := [(1, Ptr.dyn 1)], suspended := [] } 1 (Ptr.dyn 5)
      = { threads := [(1, Ptr.dyn 1)], suspended := [] } := by
  decide

/-- C3 amended: for every manager and every thread id already a key in
that manager's registry, `insert_thread` with that id silently leaves
the manager (its registry included) unchanged; no trap or error occurs. -/
theorem C3_insert_duplicate_silent_noop (m : ThreadManager) (tid : Int) (p q : Ptr)
    (h : mapFind m.threads tid = some q) :
    m.insert_thread tid p = m := by
  unfold ThreadManager.insert_thread mapEmplace
  rw [h]

/-- C3 witness: the amended statement at a concrete manager. -/
theorem C3_insert_duplicate_silent_noop_witness :
    ThreadManager.insert_thread
        { threads := [(1, Ptr.dyn 1)], suspended := [] } 1 (Ptr.dyn 7)
      = { threads := [(1, Ptr.dyn 1)], suspended := [] } :=
  C3_insert_duplicate_silent_noop
    { threads := [(1, Ptr.dyn 1)], suspended := [] } 1 (Ptr.dyn 7) (Ptr.dyn 1)
    (by decide)

/-! ### Claim C4 -/

/-- C4 counterexample: thread A holds the previously stored continuation
(10, 20); a `suspend(30, 40)` whose queue insertion fails leaves A's
stored continuation equal to (30, 40) — `Thread::suspend` calls
`store_return` before the fallible enqueue, so the prior continuation is
NOT left unchanged (the failure itself is propagated, second conjunct). -/
theorem C4_counterexample :
    (heapFind (Thread.suspend exSysStored 0 (Ptr.dyn 1) 30 40 false).1.heap
        (Ptr.dyn 1)).map (fun t => (t.stored_nexti, t.stored_stack))
      = some (30, 40)
    ∧ (Thread.suspend exSysStored 0 (Ptr.dyn 1) 30 40 false).2 = false := by
  decide

/-- C4 amended: when the suspend enqueue fails, the failure is
propagated to the caller, the manager state (registry and queue) and the
user memory are unchanged and the thread stays in the registry, and every
other thread is untouched — but the suspending thread's stored
continuation has already been overwritten with the new
(resumeAddress, resumeStackPointer); its remaining fields are unchanged. -/
theorem C4_suspend_failure_effects (s : Sys) (cpu : Nat) (p : Ptr)
    (ri rs : Nat) (t : Thread)
    (hfind : heapFind s.heap p = some t) :
    (Thread.suspend s cpu p ri rs false).2 = false
    ∧ (Thread.suspend s cpu p ri rs false).1.managers = s.managers
    ∧ (Thread.suspend s cpu p ri rs false).1.mem = s.mem
    ∧ heapFind (Thread.suspend s cpu p ri rs false).1.heap p
        = some { t with stored_nexti := ri, stored_stack := rs }
    ∧ ∀ x, x ≠ p → heapFind (Thread.suspend s cpu p ri rs false).1.heap x
        = heapFind s.heap x := by
  refine ⟨rfl, rfl, rfl, ?_, ?_⟩
  · show heapFind (store_return s p ri rs).heap p = _
    unfold store_return
    rw [heapFind_update]
    simp [hfind]
  · intro x hx
    show heapFind (store_return s p ri rs).heap x = _
    unfold store_return
    rw [heapFind_update, if_neg hx]

/-- C4 witness: the amended statement at the concrete stored-continuation
system. -/
theorem C4_suspend_failure_effects_witness :
    (Thread.suspend exSysStored 0 (Ptr.dyn 1) 30 40 false).2 = false
    ∧ (Thread.suspend exSysStored 0 (Ptr.dyn 1) 30 40 false).1.managers
        = exSysStored.managers
    ∧ (Thread.suspend exSysStored 0 (Ptr.dyn 1) 30 40 false).1.mem = exSysStored.mem
    ∧ heapFind (Thread.suspend exSysStored 0 (Ptr.dyn 1) 30 40 false).1.heap (Ptr.dyn 1)
        = some { { exA with stored_nexti := 10, stored_stack := 20 } with
                   stored_nexti := 30, stored_stack := 40 }
    ∧ ∀ x, x ≠ Ptr.dyn 1 →
        heapFind (Thread.suspend exSysStored 0 (Ptr.dyn 1) 30 40 false).1.heap x
          = heapFind exSysStored.heap x :=
  C4_suspend_failure_effects exSysStored 0 (Ptr.dyn 1) 30 40
    { exA with stored_nexti := 10, stored_stack := 20 } (by decide)

/-! ### Claim C7 -/

/-- C7: calling `wakeup_next` with an empty suspended queue hits the
fatal `assert(!suspended.empty())` (modelled as `none`); with a
non-empty queue it never hits that branch and returns the front element
after removing it from the queue. -/
theorem C7_wakeup_next_contract (s : Sys) (cpu : Nat) (m : ThreadManager)
    (hm : getMgr s cpu = some m) :
    (m.suspended = [] → wakeup_next s cpu = none)
    ∧ ∀ p rest, m.suspended = p :: rest →
        wakeup_next s cpu = some (p, setMgr s cpu { m with suspended := rest }) := by
  constructor
  · intro he
    simp [wakeup_next, hm, he]
  · intro p rest he
    simp [wakeup_next, hm, he]

/-- C7 witness: the contract at the concrete queued system (front of the
queue is thread A). -/
theorem C7_wakeup_next_contract_witness :
    (({ exMgr with suspended := [Ptr.dyn 1, Ptr.mainOf 0] } : ThreadManager).suspended = []
        → wakeup_next exSysQueued 0 = none)
    ∧ ∀ p rest,
        ({ exMgr with suspended := [Ptr.dyn 1, Ptr.mainOf 0] } : ThreadManager).suspended
            = p :: rest →
        wakeup_next exSysQueued 0
          = some (p, setMgr exSysQueued 0
              { { exMgr with suspended := [Ptr.dyn 1, Ptr.mainOf 0] } with
                  suspended := rest }) :=
  C7_wakeup_next_contract exSysQueued 0
    { exMgr with suspended := [Ptr.dyn 1, Ptr.mainOf 0] } (by decide)

/-! ### Claim C9 -/

/-- C9: `get_thread(tid)` consults only the calling CPU's manager
registry, so a thread registered on another CPU's manager is not found
(`nullptr`), and `kernel::resume(tid)` of such an id hits the fatal
`assert(Thread)` even though the thread exists process-wide. -/
theorem C9_lookup_is_cpu_local (s : Sys) (cpuA cpuB : Nat) (tid : Int)
    (mA mB : ThreadManager) (p : Ptr)
    (hA : getMgr s cpuA = some mA)
    (hB : getMgr s cpuB = some mB)
    (hreg : mapFind mB.threads tid = some p)
    (habs : mapFind mA.threads tid = none) :
    get_thread s cpuA tid = none ∧ kernelResume s cpuA tid = none := by
  constructor
  · simp [get_thread, hA, habs]
  · simp [kernelResume, get_thread, hA, habs]

/-- C9 witness: in the two-CPU system, id 1 is registered on CPU 1 but
lookup and resume from CPU 0 fail. -/
theorem C9_lookup_is_cpu_local_witness :
    get_thread exSysTwo 0 1 = none ∧ kernelResume exSysTwo 0 1 = none :=
  C9_lookup_is_cpu_local exSysTwo 0 1 1
    { threads := [], suspended := [] }
    { threads := [(1, Ptr.dyn 1)], suspended := [] }
    (Ptr.dyn 1) (by decide) (by decide) (by decide) (by decide)

/-! ### Claim C10 -/

/-- C10: `thread_create` consumes the fresh id `s.thread_counter` by an
atomic fetch-and-add before the fallible `try` block: the counter becomes
old + 1 whether or not the creation succeeds, a successful creation
returns the thread allocated under the consumed id, and a failed creation
changes nothing besides the counter — the consumed id is permanently
skipped and never rolled back, so issued ids are strictly increasing and
never reused. -/
theorem C10_id_consumed_never_rolled_back (s : Sys) (cpu : Nat) (parent : Ptr)
    (flags ctid stack : Nat) (allocOk : Bool) :
    ((thread_create s cpu parent flags ctid stack allocOk).1.thread_counter
        = s.thread_counter + 1)
    ∧ (∀ p, (thread_create s cpu parent flags ctid stack allocOk).2 = some p →
        p = Ptr.dyn s.thread_counter.toNat)
    ∧ ((thread_create s cpu parent flags ctid stack allocOk).2 = none →
        (thread_create s cpu parent flags ctid stack allocOk).1
          = { s with thread_counter := s.thread_counter + 1 }) := by
  cases allocOk with
  | false =>
    refine ⟨rfl, ?_, ?_⟩
    · intro p hp
      exact absurd hp (by simp [thread_create, generate_new_thread_id])
    · intro _
      rfl
  | true =>
    refine ⟨?_, ?_, ?_⟩
    · show (sysInsertThread _ cpu s.thread_counter (Ptr.dyn s.thread_counter.toNat)).thread_counter = _
      rw [sysInsertThread_counter]
      by_cases h1 : flags &&& CLONE_CHILD_SETTID ≠ 0 <;>
        by_cases h2 : flags &&& CLONE_CHILD_CLEARTID ≠ 0 <;>
        simp [thread_create, generate_new_thread_id, h1, h2]
    · intro p hp
      simpa [thread_create, generate_new_thread_id] using hp.symm
    · intro hnone
      exact absurd hnone (by simp [thread_create, generate_new_thread_id])

/-- C10 witness: at the concrete system, successful and failed creation
both advance the counter from 3 to 4. -/
theorem C10_id_consumed_never_rolled_back_witness :
    (((thread_create exSys 0 (Ptr.mainOf 0) 0 0 0 false).1.thread_counter
        = exSys.thread_counter + 1)
    ∧ (∀ p, (thread_create exSys 0 (Ptr.mainOf 0) 0 0 0 false).2 = some p →
        p = Ptr.dyn exSys.thread_counter.toNat)
    ∧ ((thread_create exSys 0 (Ptr.mainOf 0) 0 0 0 false).2 = none →
        (thread_create exSys 0 (Ptr.mainOf 0) 0 0 0 false).1
          = { exSys with thread_counter := exSys.thread_counter + 1 })) :=
  C10_id_consumed_never_rolled_back exSys 0 (Ptr.mainOf 0) 0 0 0 false

/-! ### Claim C5 -/

theorem suspend_enqueues (s : Sys) (cpu : Nat) (p : Ptr) (ri rs : Nat)
    (m : ThreadManager) (hm : getMgr s cpu = some m) :
    getMgr (Thread.suspend s cpu p ri rs true).1 cpu
        = some { m with suspended := m.suspended ++ [p] }
    ∧ (Thread.suspend s cpu p ri rs true).1.managers.length = s.managers.length := by
  have hm1 : getMgr (store_return s p ri rs) cpu = some m := hm
  have hlt : cpu < (store_return s p ri rs).managers.length := getMgr_lt _ _ _ hm1
  constructor
  · show getMgr (managerSuspend (store_return s p ri rs) cpu p true).1 cpu = _
    simp only [managerSuspend, if_pos, hm1]
    exact getMgr_setMgr_self _ _ _ hlt
  · show (managerSuspend (store_return s p ri rs) cpu p true).1.managers.length = _
    simp only [managerSuspend, if_pos, hm1]
    simp [setMgr, store_return]

/-- C5: three suspensions on one manager with no intervening resume are
woken strictly first-suspended-first-resumed: with an initially empty
suspended queue, after T1, T2, T3 suspend in that order the successive
`wakeup_next` calls return T1, then T2, then T3. -/
theorem C5_fifo_order (s : Sys) (cpu : Nat) (p1 p2 p3 : Ptr)
    (a1 b1 a2 b2 a3 b3 : Nat) (m : ThreadManager)
    (hm : getMgr s cpu = some m) (hq : m.suspended = []) :
    ∃ s4 s5 s6,
      wakeup_next (Thread.suspend (Thread.suspend (Thread.suspend s cpu
          p1 a1 b1 true).1 cpu p2 a2 b2 true).1 cpu p3 a3 b3 true).1 cpu
        = some (p1, s4)
      ∧ wakeup_next s4 cpu = some (p2, s5)
      ∧ wakeup_next s5 cpu = some (p3, s6) := by
  obtain ⟨h1, l1⟩ := suspend_enqueues s cpu p1 a1 b1 m hm
  rw [hq] at h1
  simp only [List.nil_append] at h1
  obtain ⟨h2, l2⟩ := suspend_enqueues _ cpu p2 a2 b2 _ h1
  simp only [List.cons_append, List.nil_append] at h2
  obtain ⟨h3, l3⟩ := suspend_enqueues _ cpu p3 a3 b3 _ h2
  simp only [List.cons_append, List.nil_append] at h3
  set s3 := (Thread.suspend (Thread.suspend (Thread.suspend s cpu
      p1 a1 b1 true).1 cpu p2 a2 b2 true).1 cpu p3 a3 b3 true).1 with hs3
  have hl3 : cpu < s3.managers.length := getMgr_lt _ _ _ h3
  have hw1 : wakeup_next s3 cpu
      = some (p1, setMgr s3 cpu { m with suspended := [p2, p3] }) := by
    simp [wakeup_next, h3]
  set s4 := setMgr s3 cpu { m with suspended := [p2, p3] } with hs4
  have h4 : getMgr s4 cpu = some { m with suspended := [p2, p3] } :=
    getMgr_setMgr_self _ _ _ hl3
  have hl4 : cpu < s4.managers.length := getMgr_lt _ _ _ h4
  have hw2 : wakeup_next s4 cpu
      = some (p2, setMgr s4 cpu { m with suspended := [p3] }) := by
    simp [wakeup_next, h4]
  set s5 := setMgr s4 cpu { m with suspended := [p3] } with hs5
  have h5 : getMgr s5 cpu = some { m with suspended := [p3] } :=
    getMgr_setMgr_self _ _ _ hl4
  have hw3 : wakeup_next s5 cpu
      = some (p3, setMgr s5 cpu { m with suspended := [] }) := by
    simp [wakeup_next, h5]
  exact ⟨s4, s5, setMgr s5 cpu { m with suspended := [] }, hw1, hw2, hw3⟩

/-- C5 witness: the FIFO order at the concrete system with an empty
queue, suspending B, A and then the main thread. -/
theorem C5_fifo_order_witness :
    ∃ s4 s5 s6,
      wakeup_next (Thread.suspend (Thread.suspend (Thread.suspend exSys 0
          (Ptr.dyn 2) 11 12 true).1 0 (Ptr.dyn 1) 13 14 true).1 0
          (Ptr.mainOf 0) 15 16 true).1 0
        = some (Ptr.dyn 2, s4)
      ∧ wakeup_next s4 0 = some (Ptr.dyn 1, s5)
      ∧ wakeup_next s5 0 = some (Ptr.mainOf 0, s6) :=
  C5_fifo_order exSys 0 (Ptr.dyn 2) (Ptr.dyn 1) (Ptr.mainOf 0)
    11 12 13 14 15 16 exMgr (by decide) (by decide)

/-! ### Claim C6 -/

/-- C6: for a thread registered in `cpuA`'s registry (and not running or
queued there), `migrate(tid, cpuB)` succeeds, after which the id is
absent from `cpuA`'s registry and present in `cpuB`'s registry, while
the heap (every field of every thread: saved continuation, TLS pointer,
parent/children links, stack) and the user memory are unchanged — only
registry ownership moves. -/
theorem C6_migrate_moves_registry_only (s : Sys) (cpuA cpuB : Nat) (tid : Int)
    (p : Ptr) (mA mB : ThreadManager)
    (hA : getMgr s cpuA = some mA)
    (hB : getMgr s cpuB = some mB)
    (hAB : cpuA ≠ cpuB)
    (hreg : mapFind mA.threads tid = some p) :
    ∃ s', migrate s cpuA tid cpuB = some s'
      ∧ (∃ mA', getMgr s' cpuA = some mA' ∧ mapFind mA'.threads tid = none)
      ∧ (∃ mB', getMgr s' cpuB = some mB' ∧ mapFind mB'.threads tid ≠ none)
      ∧ s'.heap = s.heap ∧ s'.mem = s.mem := by
  have hlA : cpuA < s.managers.length := getMgr_lt s cpuA mA hA
  have hget : get_thread s cpuA tid = some p := by
    simp [get_thread, hA, hreg]
  have herase : erase_thread_safely s cpuA p tid
      = some (setMgr s cpuA { mA with threads := mapErase mA.threads tid }) := by
    simp [erase_thread_safely, hA, hreg]
  set s1 := setMgr s cpuA { mA with threads := mapErase mA.threads tid } with hs1
  have hB1 : getMgr s1 cpuB = some mB := by
    rw [hs1, getMgr_setMgr_ne s cpuA cpuB _ hAB]
    exact hB
  have hlB1 : cpuB < s1.managers.length := getMgr_lt s1 cpuB mB hB1
  have hmig : migrate s cpuA tid cpuB
      = some (setMgr s1 cpuB (mB.insert_thread tid p)) := by
    simp [migrate, hget, herase, sysInsertThread, hB1]
  refine ⟨setMgr s1 cpuB (mB.insert_thread tid p), hmig,
    ⟨{ mA with threads := mapErase mA.threads tid }, ?_, mapFind_erase_self _ _⟩,
    ⟨mB.insert_thread tid p, getMgr_setMgr_self _ _ _ hlB1, ?_⟩, rfl, rfl⟩
  · rw [getMgr_setMgr_ne s1 cpuB cpuA _ (fun hh => hAB hh.symm), hs1]
    exact getMgr_setMgr_self _ _ _ hlA
  · exact mapFind_emplace_ne_none mB.threads tid p

/-- C6 witness: migrating id 1 from CPU 1 to CPU 0 in the two-CPU
system. -/
theorem C6_migrate_moves_registry_only_witness :
    ∃ s', migrate exSysTwo 1 1 0 = some s'
      ∧ (∃ mA', getMgr s' 1 = some mA' ∧ mapFind mA'.threads 1 = none)
      ∧ (∃ mB', getMgr s' 0 = some mB' ∧ mapFind mB'.threads 1 ≠ none)
      ∧ s'.heap = exSysTwo.heap ∧ s'.mem = exSysTwo.mem :=
  C6_migrate_moves_registry_only exSysTwo 1 0 1 (Ptr.dyn 1)
    { threads := [(1, Ptr.dyn 1)], suspended := [] }
    { threads := [], suspended := [] }
    (by decide) (by decide) (by decide) (by decide)

/-! ### Unfolding `Thread::exit` on well-formed states -/

/-- The CLONE_CHILD_CLEARTID write performed by `Thread::exit`. -/
def clearTidMem (o : Option Nat) (m : Mem) : Mem :=
  match o with
  | some a => memSet m a 0
  | none => m

/-- The system state produced by `Thread::exit` (before the optional
`erase_suspension` of the parent): children reparented, the exiting
thread removed from its parent's children, the CLEARTID address zeroed,
the registry entry erased and the thread object deleted. -/
def exitResultState (s : Sys) (cpu : Nat) (p : Ptr) (th : Thread) (q : Ptr)
    (mc : ThreadManager) : Sys :=
  { thread_counter := s.thread_counter,
    managers := s.managers.set cpu { mc with threads := mapErase mc.threads th.tid },
    heap := heapErase
      (heapUpdate (reparentChildren s.heap cpu th.children) q
        (fun t => { t with children := removeFirst t.children p })) p,
    mem := clearTidMem th.clear_tid s.mem }

/-- On a state where the exiting thread `p` is live with parent `q`, is
not its own child, and is correctly registered (so the fatal assertions
do not fire), `Thread::exit` succeeds and its result is
`exitResultState`; when the exiting thread is the current one, the
former parent is additionally erased from the suspended queue and
returned as the thread to resume. -/
theorem exit_eq (s : Sys) (cpu : Nat) (curr p : Ptr) (th : Thread) (q : Ptr)
    (mc : ThreadManager)
    (hfind : heapFind s.heap p = some th)
    (hpar : th.parent = some q)
    (hpc : p ∉ th.children)
    (hm : getMgr s cpu = some mc)
    (hreg : mapFind mc.threads th.tid = some p) :
    Thread.exit s cpu curr p =
      if curr = p
      then some (erase_suspension (exitResultState s cpu p th q mc) cpu q, some q)
      else some (exitResultState s cpu p th q mc, none) := by
  have hfind1 : heapFind (reparentChildren s.heap cpu th.children) p = some th := by
    rw [heapFind_reparent, if_neg hpc, hfind]
  have hm' : s.managers[cpu]? = some mc := hm
  by_cases hcur : curr = p
  · simp [Thread.exit, hfind, hpar, hfind1, erase_thread_safely, getMgr, setMgr,
      hm', hreg, hcur, exitResultState, clearTidMem]
  · simp [Thread.exit, hfind, hpar, hfind1, erase_thread_safely, getMgr, setMgr,
      hm', hreg, hcur, exitResultState, clearTidMem]

/-! ### Claim C1 -/

/-- C1 counterexample: the main thread of CPU 0 has child A (id 1), and
A has child B (id 2); A exits itself while B is alive.  Afterwards B's
parent is the main thread (first conjunct), but the main thread's
`children` is `[]` — it does not contain the reparented child B,
refuting the claim: `Thread::exit` only assigns each child's `parent`
field and never inserts the children into the main thread's `children`. -/
theorem C1_counterexample :
    ((Thread.exit exSys 0 (Ptr.dyn 1) (Ptr.dyn 1)).bind
        (fun r => (heapFind r.1.heap (Ptr.dyn 2)).map Thread.parent))
      = some (some (Ptr.mainOf 0))
    ∧ ((Thread.exit exSys 0 (Ptr.dyn 1) (Ptr.dyn 1)).bind
        (fun r => (heapFind r.1.heap (Ptr.mainOf 0)).map Thread.children))
      = some [] := by
  decide

/-- C1 amended: when a thread exits while a child is still alive, the
child's parent becomes the owning manager's main thread, but the main
thread's `children` set does not gain the reparented children: every
member of the main thread's `children` after the exit was already a
member before. -/
theorem C1_exit_reparents_but_main_adopts_none
    (s : Sys) (cpu : Nat) (curr p : Ptr) (th tc : Thread) (q c : Ptr)
    (mc : ThreadManager)
    (hfind : heapFind s.heap p = some th)
    (hpar : th.parent = some q)
    (hpc : p ∉ th.children)
    (hm : getMgr s cpu = some mc)
    (hreg : mapFind mc.threads th.tid = some p)
    (hc : c ∈ th.children)
    (hcl : heapFind s.heap c = some tc) :
    ∃ s' r, Thread.exit s cpu curr p = some (s', r)
      ∧ (∃ t', heapFind s'.heap c = some t'
           ∧ t'.parent = some (Ptr.mainOf cpu))
      ∧ (∀ x tm tm', heapFind s.heap (Ptr.mainOf cpu) = some tm →
           heapFind s'.heap (Ptr.mainOf cpu) = some tm' →
           x ∈ tm'.children → x ∈ tm.children) := by
  have hcp : c ≠ p := fun hh => hpc (hh ▸ hc)
  have hEheap : (exitResultState s cpu p th q mc).heap
      = heapErase (heapUpdate (reparentChildren s.heap cpu th.children) q
          (fun t => { t with children := removeFirst t.children p })) p := rfl
  have hfc : heapFind (exitResultState s cpu p th q mc).heap c
      = some (if c = q
          then { tc with parent := some (Ptr.mainOf cpu),
                         children := removeFirst tc.children p }
          else { tc with parent := some (Ptr.mainOf cpu) }) := by
    rw [hEheap, heapFind_erase_ne _ _ _ hcp, heapFind_update, heapFind_reparent,
      if_pos hc, hcl]
    by_cases hcq : c = q
    · rw [if_pos hcq, if_pos hcq]
      rfl
    · rw [if_neg hcq, if_neg hcq]
      rfl
  have hpart1 : ∃ t', heapFind (exitResultState s cpu p th q mc).heap c = some t'
      ∧ t'.parent = some (Ptr.mainOf cpu) := by
    refine ⟨_, hfc, ?_⟩
    by_cases hcq : c = q <;> simp [hcq]
  have hmainsub : ∀ x tm tm', heapFind s.heap (Ptr.mainOf cpu) = some tm →
      heapFind (exitResultState s cpu p th q mc).heap (Ptr.mainOf cpu) = some tm' →
      x ∈ tm'.children → x ∈ tm.children := by
    intro x tm tm' hmt hmt' hx
    rw [hEheap] at hmt'
    by_cases hmp : Ptr.mainOf cpu = p
    · rw [hmp, heapFind_erase_self] at hmt'
      simp at hmt'
    · rw [heapFind_erase_ne _ _ _ hmp, heapFind_update, heapFind_reparent, hmt]
        at hmt'
      by_cases hmq : Ptr.mainOf cpu = q
      · rw [if_pos hmq] at hmt'
        by_cases hmc2 : Ptr.mainOf cpu ∈ th.children
        · rw [if_pos hmc2] at hmt'
          simp only [Option.map_some', Option.some.injEq] at hmt'
          rw [← hmt'] at hx
          exact mem_removeFirst _ _ _ hx
        · rw [if_neg hmc2] at hmt'
          simp only [Option.map_some', Option.some.injEq] at hmt'
          rw [← hmt'] at hx
          exact mem_removeFirst _ _ _ hx
      · rw [if_neg hmq] at hmt'
        by_cases hmc2 : Ptr.mainOf cpu ∈ th.children
        · rw [if_pos hmc2] at hmt'
          simp only [Option.map_some', Option.some.injEq] at hmt'
          rw [← hmt'] at hx
          exact hx
        · rw [if_neg hmc2] at hmt'
          simp only [Option.some.injEq] at hmt'
          rw [← hmt'] at hx
          exact hx
  rw [exit_eq s cpu curr p th q mc hfind hpar hpc hm hreg]
  by_cases hcur : curr = p
  · rw [if_pos hcur]
    refine ⟨_, _, rfl, ?_, ?_⟩
    · rw [erase_suspension_heap]
      exact hpart1
    · intro x tm tm' hmt hmt'
      rw [erase_suspension_heap] at hmt'
      exact hmainsub x tm tm' hmt hmt'
  · rw [if_neg hcur]
    exact ⟨_, _, rfl, hpart1, hmainsub⟩

/-- C1 witness: the amended statement at the concrete system (A exits
itself; its child B is reparented to the main thread, whose own children
list gains nothing). -/
theorem C1_exit_reparents_but_main_adopts_none_witness :
    ∃ s' r, Thread.exit exSys 0 (Ptr.dyn 1) (Ptr.dyn 1) = some (s', r)
      ∧ (∃ t', heapFind s'.heap (Ptr.dyn 2) = some t'
           ∧ t'.parent = some (Ptr.mainOf 0))
      ∧ (∀ x tm tm', heapFind exSys.heap (Ptr.mainOf 0) = some tm →
           heapFind s'.heap (Ptr.mainOf 0) = some tm' →
           x ∈ tm'.children → x ∈ tm.children) :=
  C1_exit_reparents_but_main_adopts_none exSys 0 (Ptr.dyn 1) (Ptr.dyn 1)
    exA exB (Ptr.mainOf 0) (Ptr.dyn 2) exMgr
    (by decide) (by decide) (by decide) (by decide) (by decide) (by decide)
    (by decide)

/-! ### Claim C2 -/

/-- C2 counterexample: thread A (id 1) exits itself while the suspended
queue holds A itself and then the main thread (A's parent).  Afterwards
the queue is `[A]`: exit did NOT remove the exiting thread from the
suspended queue — it removed (and resumed) the former parent instead,
refuting the claim that the exiting thread removes itself. -/
theorem C2_counterexample :
    ((Thread.exit exSysQueued 0 (Ptr.dyn 1) (Ptr.dyn 1)).map
        (fun r => (r.1.managers.map ThreadManager.suspended, r.2)))
      = some ([[Ptr.dyn 1]], some (Ptr.mainOf 0)) := by
  decide

/-- C2 amended: when a thread exits itself (it is the current thread and
its parent is non-null), exit removes its former parent — not itself —
from the manager's `suspendedQueue` (every occurrence) and then resumes
the former parent; when exit is invoked on a thread by some other
thread, no resume is triggered and the suspended queue is unchanged. -/
theorem C2_exit_erases_parent_suspension_and_resumes
    (s : Sys) (cpu : Nat) (curr p : Ptr) (th : Thread) (q : Ptr)
    (mc : ThreadManager)
    (hfind : heapFind s.heap p = some th)
    (hpar : th.parent = some q)
    (hpc : p ∉ th.children)
    (hm : getMgr s cpu = some mc)
    (hreg : mapFind mc.threads th.tid = some p) :
    ∃ s' r, Thread.exit s cpu curr p = some (s', r)
      ∧ (curr = p → r = some q ∧ ∃ m', getMgr s' cpu = some m'
            ∧ m'.suspended = mc.suspended.filter (fun x => x ≠ q))
      ∧ (curr ≠ p → r = none ∧ ∃ m', getMgr s' cpu = some m'
            ∧ m'.suspended = mc.suspended) := by
  have hlt : cpu < s.managers.length := getMgr_lt s cpu mc hm
  have hmE : getMgr (exitResultState s cpu p th q mc) cpu
      = some { mc with threads := mapErase mc.threads th.tid } := by
    show (s.managers.set cpu _)[cpu]? = _
    rw [List.getElem?_set_self hlt]
  have hltE : cpu < (exitResultState s cpu p th q mc).managers.length :=
    getMgr_lt _ _ _ hmE
  rw [exit_eq s cpu curr p th q mc hfind hpar hpc hm hreg]
  by_cases hcur : curr = p
  · rw [if_pos hcur]
    refine ⟨_, _, rfl, ?_, ?_⟩
    · intro _
      refine ⟨rfl, ?_⟩
      have hgot : getMgr (erase_suspension (exitResultState s cpu p th q mc) cpu q) cpu
          = some { { mc with threads := mapErase mc.threads th.tid } with
                     suspended := mc.suspended.filter (fun x => x ≠ q) } := by
        simp only [erase_suspension, hmE]
        exact getMgr_setMgr_self _ _ _ hltE
      exact ⟨_, hgot, rfl⟩
    · intro hne
      exact absurd hcur hne
  · rw [if_neg hcur]
    refine ⟨_, _, rfl, ?_, ?_⟩
    · intro heq
      exact absurd heq hcur
    · intro _
      exact ⟨rfl, { mc with threads := mapErase mc.threads th.tid }, hmE, rfl⟩

/-- C2 witness: the amended statement at the concrete queued system (A
exits itself; the main thread — its parent — is removed from the queue
and resumed). -/
theorem C2_exit_erases_parent_suspension_and_resumes_witness :
    ∃ s' r, Thread.exit exSysQueued 0 (Ptr.dyn 1) (Ptr.dyn 1) = some (s', r)
      ∧ (Ptr.dyn 1 = Ptr.dyn 1 → r = some (Ptr.mainOf 0)
            ∧ ∃ m', getMgr s' 0 = some m'
            ∧ m'.suspended
              = ({ exMgr with suspended := [Ptr.dyn 1, Ptr.mainOf 0] }
                  : ThreadManager).suspended.filter (fun x => x ≠ Ptr.mainOf 0))
      ∧ (Ptr.dyn 1 ≠ Ptr.dyn 1 → r = none
            ∧ ∃ m', getMgr s' 0 = some m'
            ∧ m'.suspended
              = ({ exMgr with suspended := [Ptr.dyn 1, Ptr.mainOf 0] }
                  : ThreadManager).suspended) :=
  C2_exit_erases_parent_suspension_and_resumes exSysQueued 0
    (Ptr.dyn 1) (Ptr.dyn 1) exA (Ptr.mainOf 0)
    { exMgr with suspended := [Ptr.dyn 1, Ptr.mainOf 0] }
    (by decide) (by decide) (by decide) (by decide) (by decide)

/-! ### Claim C8 -/

theorem sysInsertThread_heap (s : Sys) (cpu : Nat) (tid : Int) (p : Ptr) :
    (sysInsertThread s cpu tid p).heap = s.heap := by
  unfold sysInsertThread
  cases getMgr s cpu <;> rfl

theorem sysInsertThread_mem (s : Sys) (cpu : Nat) (tid : Int) (p : Ptr) :
    (sysInsertThread s cpu tid p).mem = s.mem := by
  unfold sysInsertThread
  cases getMgr s cpu <;> rfl

/-- C8: a successful `thread_create(parent, flags, ctid, stack)` on CPU
`cpu` — starting from a state whose fresh id is in no manager's registry
(the counter invariant) — returns a thread that is registered in exactly
the calling CPU's manager registry (present there under the new id,
absent from every other manager), is a member of `parent`'s children,
and, when the CLONE_CHILD_SETTID flag is set, has had its new id written
to `ctid`. -/
theorem C8_create_registers_and_links (s : Sys) (cpu : Nat) (parent : Ptr)
    (flags ctid stack : Nat) (mc : ThreadManager) (tp : Thread)
    (hm : getMgr s cpu = some mc)
    (hp : heapFind s.heap parent = some tp)
    (hpd : Ptr.dyn s.thread_counter.toNat ≠ parent)
    (hfresh : ∀ i m', getMgr s i = some m' →
        mapFind m'.threads s.thread_counter = none) :
    ∃ s' p, thread_create s cpu parent flags ctid stack true = (s', some p)
      ∧ (∀ i m', getMgr s' i = some m' →
          mapFind m'.threads s.thread_counter
            = if i = cpu then some p else none)
      ∧ (∃ t, heapFind s'.heap parent = some t ∧ p ∈ t.children)
      ∧ (flags &&& CLONE_CHILD_SETTID ≠ 0 →
          memGet s'.mem ctid = some s.thread_counter) := by
  have hlt : cpu < s.managers.length := getMgr_lt s cpu mc hm
  set tid := s.thread_counter with htid
  set pNew := Ptr.dyn tid.toNat with hpNew
  set th := { freshThread tid with parent := some parent, my_stack := stack }
    with hth
  set s2 : Sys := { s with
      thread_counter := tid + 1,
      heap := heapUpdate (s.heap ++ [(pNew, th)]) parent
        (fun t => { t with children := t.children ++ [pNew] }) } with hs2
  set s3 : Sys := (if flags &&& CLONE_CHILD_SETTID ≠ 0
      then { s2 with mem := memSet s2.mem ctid tid } else s2) with hs3
  set h4 := heapUpdate s3.heap pNew (fun t => { t with clear_tid := some ctid }) with hh4
  set s4 : Sys := (if flags &&& CLONE_CHILD_CLEARTID ≠ 0
      then { s3 with heap := h4 } else s3) with hs4
  have hm3 : s3.managers = s.managers := by
    rw [hs3]
    split <;> rfl
  have hm4 : s4.managers = s.managers := by
    rw [hs4]
    split <;> exact hm3
  have hheap3 : s3.heap = s2.heap := by
    rw [hs3]
    split <;> rfl
  have hheap4 : heapFind s4.heap parent = heapFind s3.heap parent := by
    rw [hs4]
    split
    · show heapFind h4 parent = _
      rw [hh4, heapFind_update, if_neg (fun hh => hpd hh.symm)]
    · rfl
  have hfp2 : heapFind s2.heap parent
      = some { tp with children := tp.children ++ [pNew] } := by
    rw [hs2]
    show heapFind (heapUpdate (s.heap ++ [(pNew, th)]) parent
        (fun t => { t with children := t.children ++ [pNew] })) parent
      = some { tp with children := tp.children ++ [pNew] }
    rw [heapFind_update, if_pos rfl, heapFind_append_left s.heap _ parent tp hp]
    rfl
  have hmem4 : s4.mem = s3.mem := by
    rw [hs4]
    split <;> rfl
  have hmem3 : flags &&& CLONE_CHILD_SETTID ≠ 0 → s3.mem = memSet s.mem ctid tid := by
    intro hf
    rw [hs3, if_pos hf]
  have hm4get : getMgr s4 cpu = some mc := by
    show s4.managers[cpu]? = some mc
    rw [hm4]
    exact hm
  have heq : thread_create s cpu parent flags ctid stack true
      = (sysInsertThread s4 cpu tid pNew, some pNew) := rfl
  have hs' : sysInsertThread s4 cpu tid pNew
      = setMgr s4 cpu (mc.insert_thread tid pNew) := by
    simp [sysInsertThread, hm4get]
  have hlt4 : cpu < s4.managers.length := by
    rw [hm4]
    exact hlt
  refine ⟨setMgr s4 cpu (mc.insert_thread tid pNew), pNew, by rw [heq, hs'], ?_, ?_, ?_⟩
  · intro i m' hi
    by_cases hic : i = cpu
    · subst hic
      rw [getMgr_setMgr_self _ _ _ hlt4] at hi
      rw [if_pos rfl, ← Option.some_inj.mp hi]
      exact mapFind_emplace_absent mc.threads tid pNew (hfresh i mc hm)
    · rw [if_neg hic]
      rw [getMgr_setMgr_ne _ _ _ _ (fun hh => hic hh.symm)] at hi
      have hi' : getMgr s i = some m' := by
        show s.managers[i]? = some m'
        rw [← hm4]
        exact hi
      exact hfresh i m' hi'
  · refine ⟨{ tp with children := tp.children ++ [pNew] }, ?_, ?_⟩
    · rw [setMgr_heap, hheap4, hheap3, hfp2]
    · simp
  · intro hf
    have hsm : (setMgr s4 cpu (mc.insert_thread tid pNew)).mem = s4.mem := rfl
    rw [hsm, hmem4, hmem3 hf]
    exact memGet_set_self s.mem ctid tid

/-- C8 witness: creating a thread under the main thread on CPU 0 of the
concrete system, with the SETTID flag and `ctid` address 100. -/
theorem C8_create_registers_and_links_witness :
    ∃ s' p, thread_create exSys 0 (Ptr.mainOf 0) CLONE_CHILD_SETTID 100 555 true
        = (s', some p)
      ∧ (∀ i m', getMgr s' i = some m' →
          mapFind m'.threads exSys.thread_counter
            = if i = 0 then some p else none)
      ∧ (∃ t, heapFind s'.heap (Ptr.mainOf 0) = some t ∧ p ∈ t.children)
      ∧ (CLONE_CHILD_SETTID &&& CLONE_CHILD_SETTID ≠ 0 →
          memGet s'.mem 100 = some exSys.thread_counter) :=
  C8_create_registers_and_links exSys 0 (Ptr.mainOf 0) CLONE_CHILD_SETTID
    100 555 exMgr exMain (by decide) (by decide) (by decide)
    (by
      intro i m' hi
      cases i with
      | zero =>
        have hsome : some exMgr = some m' := hi
        rw [← Option.some_inj.mp hsome]
        decide
      | succ n =>
        simp [getMgr, exSys] at hi)

end IncludeOS
